import Mathlib

/-!
# Go-Simple-HttpServer: service binding and request routing

A shallow embedding of `main.go`.  Go strings are modelled as Lean strings
(sequences of runes, i.e. well-formed UTF-8 text), Go `int` as `Int` (no
arithmetic is performed on ports, so width plays no role), and every call that
asks the operating system something (free port, file status, URL parsing)
takes the answer of the operating system as an explicit argument.

The pieces of the Go standard library and of gin that `main.go` relies on
(`strconv.Itoa`, `regexp.ReplaceAll`, `path.Clean`, the route table of a
`gin.Engine`) are modelled by small definitions.  A registration on a router
can panic: gin refuses a second handler for a method at a path; what its route
tree decides beyond that (wildcard patterns) is an argument, `Gin`.
-/

namespace GoSimpleHttpServer

/-! ## Library models -/

/-- Decimal rendering of a Go `int`, as `strconv.Itoa` produces it. -/
def Itoa : Int → String
  | Int.ofNat m => Nat.repr m
  | Int.negSucc m => "-" ++ Nat.repr (m + 1)

/-- The two regular expressions `main.go` compiles: `.*\/` in `DoConfig` and
`\/*` in `StartServer`. -/
inductive Regexp where
  | dotStarSlash
  | slashStar
  deriving DecidableEq, Repr

/-- Outcome of `regexp.Compile` on the two constant patterns.  Both are valid
RE2 (a backslash before punctuation is a literal), so the error is always nil. -/
def regexpCompile (re : Regexp) : Except String Regexp := Except.ok re

/-- Preferred (leftmost-first, greedy) match of `.*\/` anchored at the head of
the input, as the number of runes it consumes.  The dot matches every rune but
the line feed; the star first tries to take one more rune and falls back to the
literal `/` when the rest offers no match. -/
def matchDotStarSlash : List Char → Option Nat
  | [] => none
  | c :: cs =>
    if c = '\n' then none
    else
      match matchDotStarSlash cs with
      | some n => some (n + 1)
      | none => if c = '/' then some 1 else none

/-- Preferred match of `\/*` anchored at the head of the input: the whole run
of leading slashes (possibly empty, so it always matches). -/
def matchSlashStar : List Char → Nat
  | [] => 0
  | c :: cs => if c = '/' then matchSlashStar cs + 1 else 0

/-- Anchored preferred match of a compiled expression. -/
def Regexp.matchAt : Regexp → List Char → Option Nat
  | Regexp.dotStarSlash, s => matchDotStarSlash s
  | Regexp.slashStar, s => some (matchSlashStar s)

/-- The loop of `regexp.(*Regexp).ReplaceAll` with a replacement free of `$`.
`skip` counts the runes of the current match still to be consumed,
`afterMatch` says that a match ended exactly at the current position (an empty
match there is then not replaced again).  Positions without a match copy one
rune and move on, which is the leftmost search; an empty match advances by one
rune. -/
def replaceAllFrom (re : Regexp) (repl : List Char) : Nat → Bool → List Char → List Char
  | _ + 1, _, [] => []
  | k + 1, _, _ :: cs => replaceAllFrom re repl k true cs
  | 0, afterMatch, [] =>
    match re.matchAt [] with
    | some _ => if afterMatch then [] else repl
    | none => []
  | 0, afterMatch, c :: cs =>
    match re.matchAt (c :: cs) with
    | none => c :: replaceAllFrom re repl 0 false cs
    | some 0 => (if afterMatch then [] else repl) ++ c :: replaceAllFrom re repl 0 false cs
    | some (n + 1) => repl ++ replaceAllFrom re repl n true cs

/-- `xr.ReplaceAll([]byte(src), []byte(repl))` read back as a string. -/
def ReplaceAll (re : Regexp) (src repl : String) : String :=
  String.mk (replaceAllFrom re repl.data 0 false src.data)

/-! ## Data model -/

/-- bind server config -/
structure OneServerBindConfig where
  Name : String := ""
  StaticDir : String := ""
  AccessPath : String := ""
  BindIp : String := ""
  BindPort : Int := 0
  Url : String := ""
  Des : String := ""
  deriving DecidableEq, Repr

/-- Server config -/
structure Configs where
  BindIp : String
  BindPort : Int
  Servers : List OneServerBindConfig
  Verbose : Bool
  deriving DecidableEq, Repr

/-- default Bind Conf -/
def defaultBindConf : Configs :=
  { BindIp := "0.0.0.0", BindPort := 8082, Servers := [], Verbose := true }

/-! ## Port allocator -/

/-- Answers of the operating system to the two network calls of `GetFreePort`:
whether `net.ResolveTCPAddr("tcp", "localhost:0")` succeeds, and the port the
transient listener of `net.ListenTCP` is given (`none` when listening fails). -/
structure NetEnv where
  resolveOk : Bool
  listenPort : Option Int
  deriving DecidableEq, Repr

/-- get free port -/
def GetFreePort (os : NetEnv) : Except String Int :=
  if os.resolveOk then
    match os.listenPort with
    | some port => Except.ok port
    | none => Except.error "listen tcp: no port available"
  else Except.error "resolve tcp address failed"

/-! ## Service resolver -/

/-- Resolution of one descriptor (`DoConfig`), with the network answers of the
operating system as first argument. -/
def DoConfig (os : NetEnv) (config : OneServerBindConfig) : OneServerBindConfig :=
  let config :=
    if 0 = config.BindPort then
      match GetFreePort os with
      | Except.ok port => { config with BindPort := port }
      | Except.error _ => config
    else config
  let config :=
    if "" = config.BindIp then { config with BindIp := "127.0.0.1" } else config
  let config :=
    if "" = config.AccessPath ∧ "" ≠ config.StaticDir then
      match regexpCompile Regexp.dotStarSlash with
      | Except.ok xr => { config with AccessPath := "/" ++ ReplaceAll xr config.StaticDir "" }
      | Except.error _ => config
    else config
  config

/-! ## Listener launcher -/

/-- The three outcomes of `os.Stat` that `StartServer` tells apart: no error,
an error that is `os.ErrNotExist`, and any other error. -/
inductive StatResult where
  | found
  | notExist
  | otherError
  deriving DecidableEq, Repr

/-- HTTP methods a gin route can be registered for. -/
inductive Method where
  | GET | POST | PUT | DELETE | PATCH | HEAD | OPTIONS
  deriving DecidableEq, Repr

/-- One route of a router: the method, the path it is registered under (the
argument of `router.GET` / `router.POST` joined to the base path `/` of the
engine), and the target of the handler, which is the closure of `ReverseProxy`,
i.e. `DoReverseProxy(c, target)`. -/
structure Route where
  method : Method
  path : String
  target : String
  deriving DecidableEq, Repr

/-- What `main.go` configures on a `gin.Engine`: the directory mounted by
`static.Serve("/", ...)`, the file answered by the `NoRoute` handler, the route
table, the trusted proxies, and the address handed to `Run`. -/
structure Engine where
  staticRoot : Option String := none
  noRoute : Option String := none
  routes : List Route := []
  trustedProxies : Option (List String) := none
  listenAddr : Option String := none
  deriving DecidableEq, Repr

/-- A fresh engine, `gin.Default()`. -/
def ginDefault : Engine := {}

/-- Launch of the listener of one descriptor (`StartServer`).  `stat` answers
`os.Stat` for a path.  The result is the descriptor as the caller sees it
afterwards (the Go function mutates it through the pointer) and the returned
engine, `none` for nil.  The engine carries the address of `go router.Run`.
The rewriting of `s1` sits under `err != nil`, which `regexp.Compile` never
yields for the constant pattern, so `s1` stays `StaticDir + "/index.html"`. -/
def StartServer (stat : String → StatResult) (config : OneServerBindConfig) :
    OneServerBindConfig × Option Engine :=
  if "" = config.Url then
    let config := { config with Url := "http://127.0.0.1:" ++ Itoa config.BindPort }
    let router := ginDefault
    let router :=
      if "" ≠ config.StaticDir then
        let router := { router with staticRoot := some config.StaticDir }
        let s1 := config.StaticDir ++ "/index.html"
        let s1 :=
          match regexpCompile Regexp.slashStar with
          | Except.error _ => ReplaceAll Regexp.slashStar s1 "/"
          | Except.ok _ => s1
        if stat s1 ≠ StatResult.notExist then { router with noRoute := some s1 } else router
      else router
    let szServer := config.BindIp ++ ":" ++ Itoa config.BindPort
    (config, some { router with listenAddr := some szServer })
  else (config, none)

/-! ## Reverse proxy -/

/-- The fields of `url.URL` the director touches or leaves alone. -/
structure URL where
  Scheme : String := ""
  Host : String := ""
  Path : String := ""
  RawPath : String := ""
  RawQuery : String := ""
  deriving DecidableEq, Repr

/-- The fields of `http.Request` the director touches or leaves alone. -/
structure Request where
  Method : Method
  URL : URL
  Header : List (String × List String) := []
  Host : String := ""
  RequestURI : String := ""
  Body : String := ""
  deriving DecidableEq, Repr

/-- The `director` closure of `DoReverseProxy`: `c` is the incoming request,
`remote` the parsed target, `req` the outgoing request being rewritten. -/
def director (c : Request) (remote : URL) (req : Request) : Request :=
  let req := { req with Header := c.Header }
  let req := { req with URL := { req.URL with Scheme := remote.Scheme } }
  let req := { req with Host := remote.Host }
  let req := { req with URL := { req.URL with Host := remote.Host } }
  let req := { req with RequestURI := c.RequestURI }
  let req := { req with URL := { req.URL with Path := c.RequestURI } }
  req

/-- Reverse proxy wrapper (`DoReverseProxy`).  `remote` is the outcome of `url.Parse(target)`.  The result
is the outgoing request the proxy sends: `httputil.ReverseProxy` hands the
director a clone of the incoming request.  Nothing is sent when the target does
not parse. -/
def DoReverseProxy (c : Request) (remote : Except String URL) : Option Request :=
  match remote with
  | Except.ok remote => some (director c remote c)
  | Except.error _ => none

/-- Elements of a path between its slashes, as `path.Clean` reads them. -/
def pathElems : List Char → List (List Char)
  | [] => [[]]
  | c :: cs =>
    if c = '/' then [] :: pathElems cs
    else
      match pathElems cs with
      | [] => [[c]]
      | e :: es => (c :: e) :: es

/-- One element processed by `path.Clean`; `stack` holds the elements kept so
far, the last one first.  Empty elements and `.` are dropped, `..` removes the
last kept element (at the root it is dropped, in front of a relative path it is
kept), anything else is kept. -/
def cleanStep (rooted : Bool) (stack : List (List Char)) (e : List Char) : List (List Char) :=
  if e = [] ∨ e = ['.'] then stack
  else if e = ['.', '.'] then
    match stack with
    | [] => if rooted then [] else [e]
    | top :: rest => if top = ['.', '.'] then e :: stack else rest
  else e :: stack

/-- Lexical cleaning of a path, Go's `path.Clean`. -/
def pathClean (path : String) : String :=
  if path = "" then "."
  else
    let rooted : Bool := path.data.head? = some '/'
    let kept := ((pathElems path.data).foldl (cleanStep rooted) []).reverse
    let body := List.intercalate ['/'] kept
    if rooted then String.mk ('/' :: body)
    else if kept = [] then "."
    else String.mk body

/-- Go's `path.Join` of two elements: empty elements are ignored, the rest is
joined by a slash and cleaned. -/
def pathJoin (a b : String) : String :=
  if a = "" ∧ b = "" then ""
  else if a = "" then pathClean b
  else pathClean (a ++ "/" ++ b)

/-- The `joinPaths` of gin: the relative path joined to the base path of the
group, a trailing slash of the relative path being kept. -/
def joinPaths (absolutePath relativePath : String) : String :=
  if relativePath = "" then absolutePath
  else
    let finalPath := pathJoin absolutePath relativePath
    if relativePath.data.getLast? = some '/' ∧ finalPath.data.getLast? ≠ some '/' then
      finalPath ++ "/"
    else finalPath

/-- The part of gin that is not derived here: the verdict of the route tree of
one method on a new pattern, given the patterns the tree already holds (whether
the pattern is well formed and free of conflict with a wildcard).  `false`
makes the registration panic. -/
structure Gin where
  accepts : List String → String → Bool

/-- The patterns registered on a router for one method. -/
def Engine.tree (router : Engine) (method : Method) : List String :=
  (router.routes.filter (fun r => decide (r.method = method))).map Route.path

/-- Whether gin registers a handler for `method` under `absolutePath`: the path
starts with `/`, the method has no handler at that path yet, and the tree of
the method accepts the pattern. -/
def Engine.admits (gin : Gin) (router : Engine) (method : Method) (absolutePath : String) :
    Bool :=
  decide (absolutePath.data.head? = some '/') && decide (absolutePath ∉ router.tree method) &&
    gin.accepts (router.tree method) absolutePath

/-- Registration of one forwarding handler, `router.GET(path, xxx)` and its
siblings: gin joins the path to the base path `/` of the engine and adds the
route, or panics (`none`) when it does not admit it. -/
def Engine.handle (gin : Gin) (router : Engine) (method : Method)
    (relativePath target : String) : Option Engine :=
  let absolutePath := joinPaths "/" relativePath
  if router.admits gin method absolutePath then
    some { router with
      routes := router.routes ++
        [{ method := method, path := absolutePath, target := target }] }
  else none

/-- Reverse proxy installer (`ReverseProxy`): installs the forwarding closure
on the router, for `GET` and then for `POST`; `none` when a registration
panics. -/
def ReverseProxy (gin : Gin) (path target : String) (router : Engine) : Option Engine :=
  match router.handle gin Method.GET path target with
  | some router => router.handle gin Method.POST path target
  | none => none

/-! ## Orchestrator -/

/-- Answers of the operating system during the setup pass: the file status of
a path, and the network answers met by the service at a given position of
`Servers`. -/
structure OsEnv where
  stat : String → StatResult
  net : Nat → NetEnv

/-- State built by the setup pass: the front-end router and the engines of the
listeners launched for the services, in launch order. -/
structure Gateway where
  router : Engine
  backends : List Engine := []
  deriving DecidableEq, Repr

/-- The body of the `for _, x := range defaultBindConf.Servers` loop of `main`
for the service `x` at position `i`; `none` when the registration panics. -/
def serviceStep (gin : Gin) (os : OsEnv) (i : Nat) (x : OneServerBindConfig) (g : Gateway) :
    Option Gateway :=
  let x := DoConfig (os.net i) x
  let (x, launched) := StartServer os.stat x
  let g :=
    match launched with
    | some e => { g with backends := g.backends ++ [e] }
    | none => g
  if ¬ ("" = x.AccessPath ∨ "/" = x.AccessPath) then
    match ReverseProxy gin x.AccessPath x.Url g.router with
    | some router => some { g with router := router }
    | none => none
  else some g

/-- The `for _, x := range defaultBindConf.Servers` loop of `main`, from the
service at position `i` on; a panic ends it. -/
def setupLoop (gin : Gin) (os : OsEnv) :
    Nat → List OneServerBindConfig → Gateway → Option Gateway
  | _, [], g => some g
  | i, x :: xs, g =>
    match serviceStep gin os i x g with
    | some g => setupLoop gin os (i + 1) xs g
    | none => none

/-- How the setup part of `main` ends: with a nil front-end router (no service
is processed), with a panic of a registration, or with the gateway set up and
the program blocking in `select {}`. -/
inductive SetupResult where
  | skipped
  | panicked
  | ready (g : Gateway)
  deriving DecidableEq, Repr

/-- The setup part of `main`, up to the final `select {}`; `conf` is
`defaultBindConf` as `fnInit` left it. -/
def main (gin : Gin) (conf : Configs) (os : OsEnv) : SetupResult :=
  let (_, router) := StartServer os.stat { BindIp := conf.BindIp, BindPort := conf.BindPort }
  match router with
  | some router =>
    let router := { router with trustedProxies := some ["127.0.0.1"] }
    match setupLoop gin os 0 conf.Servers { router := router } with
    | some g => SetupResult.ready g
    | none => SetupResult.panicked
  | none => SetupResult.skipped

/-! ## Derived notions used in the statements -/

/-- The descriptor after the per-service pipeline of the orchestrator:
`DoConfig` followed by `StartServer`. -/
def pipeline (os : OsEnv) (i : Nat) (x : OneServerBindConfig) : OneServerBindConfig :=
  (StartServer os.stat (DoConfig (os.net i) x)).1

/-- The resolved descriptors of a list of services, in order, the first one
being at position `i`. -/
def resolvedFrom (os : OsEnv) : Nat → List OneServerBindConfig → List OneServerBindConfig
  | _, [] => []
  | i, x :: xs => pipeline os i x :: resolvedFrom os (i + 1) xs

/-- The forwarding routes of one installation at `path` towards `target`. -/
def forwardingRoutes (path target : String) : List Route :=
  [{ method := Method.GET, path := path, target := target },
   { method := Method.POST, path := path, target := target }]

/-- An operating system on which no file exists and the port allocation of the
service at position `i` succeeds with port `40001 + i` (used for concrete
evaluations). -/
def sampleOs : OsEnv :=
  { stat := fun _ => StatResult.notExist,
    net := fun i => { resolveOk := true, listenPort := some (40001 + (i : Int)) } }

/-- The verdict of gin's tree on patterns without the wildcard markers `:` and
`*`: such patterns never conflict with one another, so each one is accepted
(used for concrete evaluations on marker-free paths). -/
def ginStatic : Gin := { accepts := fun _ _ => true }

/-- A configuration with one static directory and one external service. -/
def sampleConf : Configs :=
  { BindIp := "0.0.0.0", BindPort := 8082, Verbose := true,
    Servers := [{ StaticDir := "./web/app1" },
                { Url := "http://10.0.0.5:3000", AccessPath := "/api" }] }

/-- A configuration with two static directories of the same final name. -/
def clashConf : Configs :=
  { BindIp := "0.0.0.0", BindPort := 8082, Verbose := true,
    Servers := [{ StaticDir := "./siteA/public" }, { StaticDir := "./siteB/public" }] }

/-! ## The regular expression of `DoConfig` -/

theorem matchDotStarSlash_none (s : List Char) (h : '/' ∉ s) : matchDotStarSlash s = none := by
  induction s with
  | nil => rfl
  | cons c cs ih =>
    have hc : c ≠ '/' := fun e => h (by simp [e])
    have hcs : '/' ∉ cs := fun e => h (by simp [e])
    simp [matchDotStarSlash, ih hcs, hc]

theorem matchDotStarSlash_append (pre base : List Char) (h1 : '\n' ∉ pre) (h2 : '/' ∉ base) :
    matchDotStarSlash (pre ++ '/' :: base) = some (pre.length + 1) := by
  induction pre with
  | nil => simp [matchDotStarSlash, matchDotStarSlash_none base h2]
  | cons c cs ih =>
    have hc : c ≠ '\n' := fun e => h1 (by simp [e])
    have hcs : '\n' ∉ cs := fun e => h1 (by simp [e])
    simp [matchDotStarSlash, ih hcs, hc]

theorem replaceAllFrom_skip (re : Regexp) (repl xs ys : List Char) :
    replaceAllFrom re repl xs.length true (xs ++ ys) = replaceAllFrom re repl 0 true ys := by
  induction xs with
  | nil => rfl
  | cons c cs ih => simpa [replaceAllFrom] using ih

theorem replaceAllFrom_no_slash (s : List Char) (b : Bool) (h : '/' ∉ s) :
    replaceAllFrom Regexp.dotStarSlash [] 0 b s = s := by
  induction s generalizing b with
  | nil => simp [replaceAllFrom, Regexp.matchAt, matchDotStarSlash]
  | cons c cs ih =>
    have hcs : '/' ∉ cs := fun e => h (by simp [e])
    simp [replaceAllFrom, Regexp.matchAt, matchDotStarSlash_none (c :: cs) h, ih false hcs]

theorem replaceAllFrom_match (re : Regexp) (repl : List Char) (b : Bool) (c : Char)
    (cs : List Char) (n : Nat) (h : re.matchAt (c :: cs) = some (n + 1)) :
    replaceAllFrom re repl 0 b (c :: cs) = repl ++ replaceAllFrom re repl n true cs := by
  rw [replaceAllFrom, h]

theorem replaceAllFrom_basename (pre base : List Char) (h1 : '\n' ∉ pre) (h2 : '/' ∉ base) :
    replaceAllFrom Regexp.dotStarSlash [] 0 false (pre ++ '/' :: base) = base := by
  have hm := matchDotStarSlash_append pre base h1 h2
  cases pre with
  | nil =>
    have hm1 : Regexp.dotStarSlash.matchAt ('/' :: base) = some (0 + 1) := by
      simpa [Regexp.matchAt] using hm
    rw [List.nil_append, replaceAllFrom_match _ _ _ _ _ _ hm1, List.nil_append]
    exact replaceAllFrom_no_slash base true h2
  | cons c cs =>
    have hm1 : Regexp.dotStarSlash.matchAt (c :: (cs ++ '/' :: base)) =
        some ((cs ++ ['/']).length + 1) := by
      simpa [Regexp.matchAt] using hm
    have hs := replaceAllFrom_skip Regexp.dotStarSlash [] (cs ++ ['/']) base
    rw [List.cons_append, replaceAllFrom_match _ _ _ _ _ _ hm1, List.nil_append]
    have e : cs ++ '/' :: base = (cs ++ ['/']) ++ base := by simp
    rw [e, hs]
    exact replaceAllFrom_no_slash base true h2

/-- Away from line feeds the expression of `DoConfig` keeps the final path
component: with nothing but the part after the last `/` left. -/
theorem ReplaceAll_basename (pre base : String) (h1 : '\n' ∉ pre.data) (h2 : '/' ∉ base.data) :
    ReplaceAll Regexp.dotStarSlash (pre ++ "/" ++ base) "" = base := by
  unfold ReplaceAll
  have hd : (pre ++ "/" ++ base).data = pre.data ++ '/' :: base.data := by
    simp [String.data_append]
  have he : ("" : String).data = [] := rfl
  rw [hd, he, replaceAllFrom_basename pre.data base.data h1 h2]

/-- A directory without `/` is kept whole. -/
theorem ReplaceAll_no_slash (dir : String) (h : '/' ∉ dir.data) :
    ReplaceAll Regexp.dotStarSlash dir "" = dir := by
  unfold ReplaceAll
  have he : ("" : String).data = [] := rfl
  rw [he, replaceAllFrom_no_slash dir.data false h]

/-! ## Service resolver: what `DoConfig` keeps and what it fills in -/

theorem DoConfig_AccessPath_derived (os : NetEnv) (config : OneServerBindConfig)
    (h1 : config.AccessPath = "") (h2 : config.StaticDir ≠ "") :
    (DoConfig os config).AccessPath =
      "/" ++ ReplaceAll Regexp.dotStarSlash config.StaticDir "" := by
  have h2' : ¬ ("" = config.StaticDir) := fun e => h2 e.symm
  unfold DoConfig
  simp only [regexpCompile]
  split_ifs <;> (try split) <;> simp_all

theorem DoConfig_AccessPath_kept (os : NetEnv) (config : OneServerBindConfig)
    (h : config.AccessPath ≠ "" ∨ config.StaticDir = "") :
    (DoConfig os config).AccessPath = config.AccessPath := by
  unfold DoConfig
  simp only [regexpCompile]
  split_ifs <;> (try split) <;> simp_all

theorem DoConfig_Url (os : NetEnv) (config : OneServerBindConfig) :
    (DoConfig os config).Url = config.Url := by
  unfold DoConfig
  simp only [regexpCompile]
  split_ifs <;> (try split) <;> simp_all

theorem DoConfig_StaticDir (os : NetEnv) (config : OneServerBindConfig) :
    (DoConfig os config).StaticDir = config.StaticDir := by
  unfold DoConfig
  simp only [regexpCompile]
  split_ifs <;> (try split) <;> simp_all

theorem DoConfig_BindIp (os : NetEnv) (config : OneServerBindConfig) :
    (DoConfig os config).BindIp = if "" = config.BindIp then "127.0.0.1" else config.BindIp := by
  unfold DoConfig
  simp only [regexpCompile]
  split_ifs <;> (try split) <;> simp_all

theorem DoConfig_BindPort (os : NetEnv) (config : OneServerBindConfig) :
    (DoConfig os config).BindPort =
      if 0 = config.BindPort then
        match GetFreePort os with
        | Except.ok port => port
        | Except.error _ => config.BindPort
      else config.BindPort := by
  unfold DoConfig
  simp only [regexpCompile]
  split_ifs <;> (try split) <;> simp_all

theorem append_ne_empty_left (a b : String) (h : a ≠ "") : a ++ b ≠ "" := by
  intro e
  have hd := congrArg String.data e
  rw [String.data_append] at hd
  have ha : a.data = [] := (List.append_eq_nil.mp hd).1
  exact h (String.ext ha)

/-- Away from line feeds `DoConfig` derives the final path component: for a
directory `pre/base` with no line feed in `pre` and no `/` in `base`, the
derived access path is `/base`; a directory without any `/` is taken whole. -/
theorem DoConfig_AccessPath_basename (os : NetEnv) (config : OneServerBindConfig)
    (h1 : config.AccessPath = "") :
    (∀ pre base : String, config.StaticDir = pre ++ "/" ++ base → '\n' ∉ pre.data →
        '/' ∉ base.data → (DoConfig os config).AccessPath = "/" ++ base) ∧
    (config.StaticDir ≠ "" → '/' ∉ config.StaticDir.data →
        (DoConfig os config).AccessPath = "/" ++ config.StaticDir) := by
  constructor
  · intro pre base hd hp hb
    have hne : config.StaticDir ≠ "" := by
      rw [hd, String.append_assoc]
      intro e
      have := congrArg String.data e
      simp [String.data_append] at this
    rw [DoConfig_AccessPath_derived os config h1 hne, hd, ReplaceAll_basename pre base hp hb]
  · intro hne hs
    rw [DoConfig_AccessPath_derived os config h1 hne, ReplaceAll_no_slash _ hs]

/-! ## Listener launcher: the two branches of `StartServer` -/

theorem StartServer_of_url (stat : String → StatResult) (config : OneServerBindConfig)
    (h : config.Url ≠ "") : StartServer stat config = (config, none) := by
  have h' : ¬ ("" = config.Url) := fun e => h e.symm
  simp [StartServer, h']

theorem StartServer_config_of_no_url (stat : String → StatResult) (config : OneServerBindConfig)
    (h : config.Url = "") :
    (StartServer stat config).1 =
      { config with Url := "http://127.0.0.1:" ++ Itoa config.BindPort } := by
  simp [StartServer, h]

theorem StartServer_AccessPath (stat : String → StatResult) (config : OneServerBindConfig) :
    (StartServer stat config).1.AccessPath = config.AccessPath := by
  by_cases h : config.Url = ""
  · rw [StartServer_config_of_no_url stat config h]
  · rw [StartServer_of_url stat config h]

/-! ## Registration on the router -/

theorem ReverseProxy_eq (gin : Gin) (path target : String) (router : Engine) :
    ReverseProxy gin path target router =
      if router.admits gin Method.GET (joinPaths "/" path) = true ∧
          router.admits gin Method.POST (joinPaths "/" path) = true then
        some { router with
          routes := router.routes ++ forwardingRoutes (joinPaths "/" path) target }
      else none := by
  have ht : Engine.tree
      { router with routes := router.routes ++
          [{ method := Method.GET, path := joinPaths "/" path, target := target }] }
      Method.POST = router.tree Method.POST := by
    simp [Engine.tree, List.filter_append]
  have ha : Engine.admits gin
      { router with routes := router.routes ++
          [{ method := Method.GET, path := joinPaths "/" path, target := target }] }
      Method.POST (joinPaths "/" path) =
        router.admits gin Method.POST (joinPaths "/" path) := by
    unfold Engine.admits
    rw [ht]
  by_cases hg : router.admits gin Method.GET (joinPaths "/" path) = true
  · by_cases hp : router.admits gin Method.POST (joinPaths "/" path) = true
    · simp [ReverseProxy, Engine.handle, hg, hp, ha, forwardingRoutes]
    · simp [ReverseProxy, Engine.handle, hg, hp, ha]
  · simp [ReverseProxy, Engine.handle, hg]

theorem serviceStep_eq (gin : Gin) (os : OsEnv) (i : Nat) (x : OneServerBindConfig)
    (g : Gateway) :
    serviceStep gin os i x g =
      if (pipeline os i x).AccessPath ≠ "" ∧ (pipeline os i x).AccessPath ≠ "/" then
        if g.router.admits gin Method.GET (joinPaths "/" (pipeline os i x).AccessPath) = true ∧
            g.router.admits gin Method.POST (joinPaths "/" (pipeline os i x).AccessPath) = true
        then
          some
            { router := { g.router with
                routes := g.router.routes ++
                  forwardingRoutes (joinPaths "/" (pipeline os i x).AccessPath)
                    (pipeline os i x).Url },
              backends := g.backends ++ (StartServer os.stat (DoConfig (os.net i) x)).2.toList }
        else none
      else
        some { g with
          backends := g.backends ++ (StartServer os.stat (DoConfig (os.net i) x)).2.toList } := by
  unfold serviceStep pipeline
  dsimp only
  generalize StartServer os.stat (DoConfig (os.net i) x) = r
  obtain ⟨y, launched⟩ := r
  by_cases h1 : "" = y.AccessPath
  · cases launched <;> simp [h1.symm]
  · by_cases h2 : "/" = y.AccessPath
    · cases launched <;> simp [h2.symm]
    · have h1' : ¬ (y.AccessPath = "") := fun e => h1 e.symm
      have h2' : ¬ (y.AccessPath = "/") := fun e => h2 e.symm
      cases launched <;>
        (simp only [h1, h2, h1', h2', ReverseProxy_eq, or_self, not_false_eq_true, if_true,
          ne_eq, and_self]
         split_ifs <;> simp)

theorem pathClean_rooted_head (a : String) :
    (pathClean ("/" ++ a)).data.head? = some '/' := by
  have hd : ("/" ++ a).data = '/' :: a.data := by simp [String.data_append]
  have hne : "/" ++ a ≠ "" := append_ne_empty_left _ _ (by decide)
  simp [pathClean, hne, hd]

theorem joinPaths_root_head (path : String) :
    (joinPaths "/" path).data.head? = some '/' := by
  have e : ("/" : String) ≠ "" := by decide
  have hj : pathJoin "/" path = pathClean ("/" ++ ("/" ++ path)) := by
    unfold pathJoin
    rw [if_neg (fun h => e h.1), if_neg e, String.append_assoc]
  have hh := pathClean_rooted_head ("/" ++ path)
  rw [← hj] at hh
  by_cases h1 : path = ""
  · simp [joinPaths, h1]
  · simp only [joinPaths, h1, if_false]
    split_ifs
    · rw [String.data_append]
      cases hc : (pathJoin "/" path).data with
      | nil => rw [hc] at hh; simp at hh
      | cons c cs => rw [hc] at hh; simpa using hh
    · exact hh

theorem Engine.admits_of_fresh (gin : Gin) (router : Engine) (method : Method) (path : String)
    (h1 : ∀ r ∈ router.routes, r.path ≠ joinPaths "/" path)
    (h2 : ∀ tree, gin.accepts tree (joinPaths "/" path) = true) :
    router.admits gin method (joinPaths "/" path) = true := by
  have hn : joinPaths "/" path ∉ router.tree method := by
    intro hm
    simp only [Engine.tree, List.mem_map, List.mem_filter] at hm
    obtain ⟨r, ⟨hr, _⟩, hp⟩ := hm
    exact h1 r hr hp
  simp [Engine.admits, joinPaths_root_head, hn, h2]

theorem serviceStep_routes (gin : Gin) (os : OsEnv) (i : Nat) (x : OneServerBindConfig)
    (g g1 : Gateway) (h : serviceStep gin os i x g = some g1) :
    g1.router.routes =
      g.router.routes ++
        (if (pipeline os i x).AccessPath ≠ "" ∧ (pipeline os i x).AccessPath ≠ "/" then
          forwardingRoutes (joinPaths "/" (pipeline os i x).AccessPath) (pipeline os i x).Url
        else []) := by
  rw [serviceStep_eq] at h
  split_ifs at h with hq ha
  · rw [← Option.some.inj h, if_pos hq]
  · rw [← Option.some.inj h, if_neg hq]
    simp

theorem setupLoop_routes (gin : Gin) (os : OsEnv) (xs : List OneServerBindConfig) :
    ∀ (i : Nat) (g g1 : Gateway), setupLoop gin os i xs g = some g1 →
      g1.router.routes =
        g.router.routes ++
          ((resolvedFrom os i xs).filter
            (fun x => decide (x.AccessPath ≠ "" ∧ x.AccessPath ≠ "/"))).flatMap
            (fun x => forwardingRoutes (joinPaths "/" x.AccessPath) x.Url) := by
  induction xs with
  | nil =>
    intro i g g1 h
    simp only [setupLoop, Option.some.injEq] at h
    simp [resolvedFrom, h]
  | cons x xs ih =>
    intro i g g1 h
    rw [setupLoop] at h
    cases hs : serviceStep gin os i x g with
    | none => rw [hs] at h; exact absurd h (by simp)
    | some g2 =>
      rw [hs] at h
      rw [ih (i + 1) g2 g1 h, serviceStep_routes gin os i x g g2 hs, resolvedFrom]
      by_cases hq : (pipeline os i x).AccessPath ≠ "" ∧ (pipeline os i x).AccessPath ≠ "/"
      · simp [List.filter_cons, hq, List.append_assoc]
      · simp [List.filter_cons, hq]

theorem setupLoop_succeeds (gin : Gin) (os : OsEnv) (xs : List OneServerBindConfig) :
    ∀ (i : Nat) (g : Gateway),
      (((resolvedFrom os i xs).filter
          (fun x => decide (x.AccessPath ≠ "" ∧ x.AccessPath ≠ "/"))).map
          (fun x => joinPaths "/" x.AccessPath)).Nodup →
      (∀ x ∈ (resolvedFrom os i xs).filter
          (fun x => decide (x.AccessPath ≠ "" ∧ x.AccessPath ≠ "/")),
        (∀ tree, gin.accepts tree (joinPaths "/" x.AccessPath) = true) ∧
        ∀ r ∈ g.router.routes, r.path ≠ joinPaths "/" x.AccessPath) →
      ∃ g1, setupLoop gin os i xs g = some g1 := by
  induction xs with
  | nil => intro i g _ _; exact ⟨g, rfl⟩
  | cons x xs ih =>
    intro i g hnd hacc
    rw [setupLoop]
    by_cases hq : (pipeline os i x).AccessPath ≠ "" ∧ (pipeline os i x).AccessPath ≠ "/"
    · have hf : (resolvedFrom os i (x :: xs)).filter
          (fun x => decide (x.AccessPath ≠ "" ∧ x.AccessPath ≠ "/")) =
          pipeline os i x :: (resolvedFrom os (i + 1) xs).filter
            (fun x => decide (x.AccessPath ≠ "" ∧ x.AccessPath ≠ "/")) := by
        simp [resolvedFrom, List.filter_cons, hq]
      rw [hf] at hnd hacc
      rw [List.map_cons, List.nodup_cons] at hnd
      have h0 := hacc (pipeline os i x) (List.mem_cons_self _ _)
      have hG := Engine.admits_of_fresh gin g.router Method.GET _ h0.2 h0.1
      have hP := Engine.admits_of_fresh gin g.router Method.POST _ h0.2 h0.1
      rw [serviceStep_eq, if_pos hq, if_pos ⟨hG, hP⟩]
      apply ih (i + 1) _ hnd.2
      intro y hy
      refine ⟨(hacc y (List.mem_cons_of_mem _ hy)).1, ?_⟩
      intro r hr
      simp only [List.mem_append, forwardingRoutes, List.mem_cons, List.mem_singleton,
        List.not_mem_nil, or_false] at hr
      rcases hr with hr | hr | hr
      · exact (hacc y (List.mem_cons_of_mem _ hy)).2 r hr
      · subst hr
        intro e
        exact hnd.1 (List.mem_map.mpr ⟨y, hy, e.symm⟩)
      · subst hr
        intro e
        exact hnd.1 (List.mem_map.mpr ⟨y, hy, e.symm⟩)
    · have hf : (resolvedFrom os i (x :: xs)).filter
          (fun x => decide (x.AccessPath ≠ "" ∧ x.AccessPath ≠ "/")) =
          (resolvedFrom os (i + 1) xs).filter
            (fun x => decide (x.AccessPath ≠ "" ∧ x.AccessPath ≠ "/")) := by
        simp [resolvedFrom, List.filter_cons, hq]
      rw [hf] at hnd hacc
      rw [serviceStep_eq, if_neg hq]
      exact ih (i + 1) _ hnd hacc

theorem pathElems_no_slash (b : List Char) (h : '/' ∉ b) : pathElems b = [b] := by
  induction b with
  | nil => rfl
  | cons c cs ih =>
    have hc : c ≠ '/' := fun e => h (by simp [e])
    have hcs : '/' ∉ cs := fun e => h (by simp [e])
    simp [pathElems, hc, ih hcs]

/-- An access path made of `/` and one element that is neither `.` nor `..` is
registered as it is. -/
theorem joinPaths_basename (base : String) (h1 : '/' ∉ base.data) (h2 : base ≠ "")
    (h3 : base ≠ ".") (h4 : base ≠ "..") : joinPaths "/" ("/" ++ base) = "/" ++ base := by
  have e : ("/" : String) ≠ "" := by decide
  have hb : base.data ≠ [] := fun h => h2 (String.ext h)
  have hb1 : base.data ≠ ['.'] := fun h => h3 (String.ext h)
  have hb2 : base.data ≠ ['.', '.'] := fun h => h4 (String.ext h)
  have hne : "/" ++ base ≠ "" := append_ne_empty_left _ _ e
  have hne3 : "/" ++ ("/" ++ ("/" ++ base)) ≠ "" := append_ne_empty_left _ _ e
  have hd : ("/" ++ ("/" ++ ("/" ++ base))).data = '/' :: '/' :: '/' :: base.data := by
    simp [String.data_append]
  have hj : pathJoin "/" ("/" ++ base) = "/" ++ base := by
    unfold pathJoin
    rw [if_neg (fun h => e h.1), if_neg e, String.append_assoc]
    apply String.ext
    simp [pathClean, hne3, hd, pathElems, pathElems_no_slash _ h1, cleanStep, hb, hb1, hb2,
      String.data_append]
    simp [List.intercalate, List.intersperse]
  have hl : ("/" ++ base).data.getLast? ≠ some '/' := by
    rw [String.data_append]
    intro hh
    rw [List.getLast?_append_of_ne_nil _ hb] at hh
    exact h1 (List.mem_of_getLast?_eq_some hh)
  simp only [joinPaths, hne, if_false, hj]
  rw [if_neg (fun h => hl h.1)]

theorem Engine.tree_append_forwardingRoutes (router : Engine) (path target : String) :
    Engine.tree { router with routes := router.routes ++ forwardingRoutes path target }
      Method.GET = router.tree Method.GET ++ [path] := by
  simp [Engine.tree, List.filter_append, forwardingRoutes]

theorem setupLoop_panics (gin : Gin) (os : OsEnv) (xs : List OneServerBindConfig) :
    ∀ (i : Nat) (g : Gateway),
      (¬ (((resolvedFrom os i xs).filter
            (fun x => decide (x.AccessPath ≠ "" ∧ x.AccessPath ≠ "/"))).map
            (fun x => joinPaths "/" x.AccessPath)).Nodup ∨
        ∃ y ∈ (resolvedFrom os i xs).filter
            (fun x => decide (x.AccessPath ≠ "" ∧ x.AccessPath ≠ "/")),
          joinPaths "/" y.AccessPath ∈ g.router.tree Method.GET) →
      setupLoop gin os i xs g = none := by
  induction xs with
  | nil =>
    intro i g h
    simp [resolvedFrom] at h
  | cons x xs ih =>
    intro i g h
    rw [setupLoop, serviceStep_eq]
    by_cases hq : (pipeline os i x).AccessPath ≠ "" ∧ (pipeline os i x).AccessPath ≠ "/"
    · have hf : (resolvedFrom os i (x :: xs)).filter
          (fun x => decide (x.AccessPath ≠ "" ∧ x.AccessPath ≠ "/")) =
          pipeline os i x :: (resolvedFrom os (i + 1) xs).filter
            (fun x => decide (x.AccessPath ≠ "" ∧ x.AccessPath ≠ "/")) := by
        simp [resolvedFrom, List.filter_cons, hq]
      rw [hf] at h
      rw [if_pos hq]
      split_ifs with ha
      · apply ih (i + 1)
        have hG : joinPaths "/" (pipeline os i x).AccessPath ∉ g.router.tree Method.GET := by
          have := ha.1
          simp only [Engine.admits, Bool.and_eq_true, decide_eq_true_eq] at this
          exact this.1.2
        rcases h with h | ⟨y, hy, hmem⟩
        · rw [List.map_cons, List.nodup_cons, not_and_or, not_not] at h
          rcases h with h | h
          · obtain ⟨y, hy, hyp⟩ := List.mem_map.mp h
            refine Or.inr ⟨y, hy, ?_⟩
            dsimp only
            rw [Engine.tree_append_forwardingRoutes, hyp]
            simp
          · exact Or.inl h
        · rcases List.mem_cons.mp hy with hy | hy
          · rw [hy] at hmem
            exact absurd hmem hG
          · refine Or.inr ⟨y, hy, ?_⟩
            dsimp only
            rw [Engine.tree_append_forwardingRoutes]
            exact List.mem_append_left _ hmem
      · rfl
    · have hf : (resolvedFrom os i (x :: xs)).filter
          (fun x => decide (x.AccessPath ≠ "" ∧ x.AccessPath ≠ "/")) =
          (resolvedFrom os (i + 1) xs).filter
            (fun x => decide (x.AccessPath ≠ "" ∧ x.AccessPath ≠ "/")) := by
        simp [resolvedFrom, List.filter_cons, hq]
      rw [hf] at h
      rw [if_neg hq]
      exact ih (i + 1) _ h

/-- Away from line feeds a directory that ends with `/` resolves to the access
path `/`, for which the orchestrator launches the listener and registers no
route. -/
theorem serviceStep_trailing_slash (gin : Gin) (os : OsEnv) (i : Nat) (x : OneServerBindConfig)
    (g : Gateway) (pre : String) (h1 : x.AccessPath = "") (h2 : x.Url = "")
    (h3 : x.StaticDir = pre ++ "/") (h4 : '\n' ∉ pre.data) :
    (DoConfig (os.net i) x).AccessPath = "/" ∧
    ∃ e, serviceStep gin os i x g = some { g with backends := g.backends ++ [e] } ∧
      e.listenAddr = some ((DoConfig (os.net i) x).BindIp ++ ":" ++
        Itoa (DoConfig (os.net i) x).BindPort) := by
  have hd : x.StaticDir = pre ++ "/" ++ "" := by rw [String.append_empty]; exact h3
  have ha : (DoConfig (os.net i) x).AccessPath = "/" := by
    rw [(DoConfig_AccessPath_basename (os.net i) x h1).1 pre "" hd h4 (by simp)]
    rfl
  have hu : (DoConfig (os.net i) x).Url = "" := by rw [DoConfig_Url]; exact h2
  have hp : (pipeline os i x).AccessPath = "/" := by
    unfold pipeline
    rw [StartServer_AccessPath, ha]
  refine ⟨ha, ?_⟩
  rw [serviceStep_eq, if_neg (fun h => h.2 hp)]
  simp [StartServer, hu]

/-- What the director leaves in the outgoing URL: scheme and host of the
target, the request URI of the incoming request as path, and the query the
outgoing request already had. -/
theorem director_URL (c : Request) (remote : URL) (req : Request) :
    (director c remote req).URL.Scheme = remote.Scheme ∧
    (director c remote req).URL.Host = remote.Host ∧
    (director c remote req).Host = remote.Host ∧
    (director c remote req).URL.Path = c.RequestURI ∧
    (director c remote req).URL.RawQuery = req.URL.RawQuery ∧
    (director c remote req).Body = req.Body :=
  ⟨rfl, rfl, rfl, rfl, rfl, rfl⟩

/-! ## The claims -/

/-- C1: at the directory `sites\nold/blog` (a line feed before the last `/`),
whose final path component is `blog`, `DoConfig` derives the access path
`/sites\nblog` instead of `/blog`: the dot of the expression `.*\/` does not
cross a line feed, so the part of an earlier line survives. -/
theorem C1_DoConfig_line_feed_keeps_earlier_line :
    (DoConfig { resolveOk := true, listenPort := some 40001 }
        { StaticDir := "sites\nold/blog" }).AccessPath = "/sites\nblog" ∧
    (DoConfig { resolveOk := true, listenPort := some 40001 }
        { StaticDir := "sites\nold/blog" }).AccessPath ≠ "/blog" := by
  decide

/-- C2 (as stated, refuted): the resolved descriptor with `BindIp`
`192.168.1.10` and `BindPort` 9001 gets the `Url` `http://127.0.0.1:9001`, not
`http://192.168.1.10:9001`, while its listener binds `192.168.1.10:9001`. -/
theorem C2_StartServer_url_ignores_BindIp :
    (StartServer (fun _ => StatResult.notExist)
        (DoConfig { resolveOk := true, listenPort := some 40001 }
          { StaticDir := "./web/app1", BindIp := "192.168.1.10", BindPort := 9001 })).1.Url
      ≠ "http://" ++ "192.168.1.10" ++ ":" ++ Itoa 9001 ∧
    (StartServer (fun _ => StatResult.notExist)
        (DoConfig { resolveOk := true, listenPort := some 40001 }
          { StaticDir := "./web/app1", BindIp := "192.168.1.10", BindPort := 9001 })).1.Url
      = "http://127.0.0.1:9001" := by
  decide

/-- C2 (amended): for every descriptor with an empty `Url`, `StartServer` sets
`Url` to `http://127.0.0.1:` followed by the decimal `BindPort`, whatever
`BindIp` is, and launches a listener on `BindIp:BindPort`; the `Url` is
`http://BindIp:BindPort` when `BindIp` is `127.0.0.1`. -/
theorem C2_StartServer_url_loopback (stat : String → StatResult) (config : OneServerBindConfig)
    (h : config.Url = "") :
    (StartServer stat config).1.Url = "http://127.0.0.1:" ++ Itoa config.BindPort ∧
    (∃ e, (StartServer stat config).2 = some e ∧
      e.listenAddr = some (config.BindIp ++ ":" ++ Itoa config.BindPort)) ∧
    (config.BindIp = "127.0.0.1" →
      (StartServer stat config).1.Url =
        "http://" ++ config.BindIp ++ ":" ++ Itoa config.BindPort) := by
  have hu : (StartServer stat config).1.Url = "http://127.0.0.1:" ++ Itoa config.BindPort := by
    rw [StartServer_config_of_no_url stat config h]
  refine ⟨hu, ?_, ?_⟩
  · simp only [StartServer, h, if_true]
    exact ⟨_, rfl, rfl⟩
  · intro hb
    rw [hu, hb]
    have e : "http://" ++ "127.0.0.1" ++ ":" = "http://127.0.0.1:" := by decide
    rw [e]

/-- C2 (amended), applied to the front-end descriptor of the defaults. -/
theorem C2_StartServer_url_loopback_witness :
    (StartServer (fun _ => StatResult.notExist)
        { BindIp := "0.0.0.0", BindPort := 8082 }).1.Url = "http://127.0.0.1:" ++ Itoa 8082 ∧
    (∃ e, (StartServer (fun _ => StatResult.notExist)
        { BindIp := "0.0.0.0", BindPort := 8082 }).2 = some e ∧
      e.listenAddr = some ("0.0.0.0" ++ ":" ++ Itoa 8082)) :=
  ⟨(C2_StartServer_url_loopback (fun _ => StatResult.notExist)
      { BindIp := "0.0.0.0", BindPort := 8082 } rfl).1,
   (C2_StartServer_url_loopback (fun _ => StatResult.notExist)
      { BindIp := "0.0.0.0", BindPort := 8082 } rfl).2.1⟩

/-- C3: for the request `GET /api/orders?x=1` (path `/api/orders`, query `x=1`)
proxied to `http://10.0.0.5:3000`, the outgoing request has the scheme and host
of the target, but its URL path is the whole request URI `/api/orders?x=1`, not
the original path, with the query `x=1` still attached besides. -/
theorem C3_DoReverseProxy_path_is_request_uri :
    ∃ out,
      DoReverseProxy
          { Method := Method.GET, URL := { Path := "/api/orders", RawQuery := "x=1" },
            Host := "localhost:9000", RequestURI := "/api/orders?x=1" }
          (Except.ok { Scheme := "http", Host := "10.0.0.5:3000" }) = some out ∧
      out.URL.Scheme = "http" ∧ out.URL.Host = "10.0.0.5:3000" ∧ out.Host = "10.0.0.5:3000" ∧
      out.URL.Path = "/api/orders?x=1" ∧ out.URL.Path ≠ "/api/orders" ∧
      out.URL.RawQuery = "x=1" :=
  ⟨_, rfl, rfl, rfl, rfl, rfl, by decide, rfl⟩

/-- C4 (as stated, refuted): after `ReverseProxy` on a fresh router, which
succeeds, no route for `PUT` exists at the path (nor for any method but `GET`
and `POST`). -/
theorem C4_ReverseProxy_leaves_PUT_unrouted :
    ∃ e, ReverseProxy ginStatic "/api" "http://10.0.0.5:3000" ginDefault = some e ∧
      ¬ ∃ r ∈ e.routes, r.method = Method.PUT :=
  ⟨{ routes := forwardingRoutes "/api" "http://10.0.0.5:3000" }, by decide, by decide⟩

/-- C4 (amended): for every path, target and router, `ReverseProxy` registers a
forwarding handler for `GET` and then for `POST`, and for no other method,
under the path gin joins to `/`.  When gin admits both registrations (the
method has no handler at that path yet and the tree accepts the pattern) the
router afterwards is the one before with exactly these two routes added at the
end, both forwarding to the target; otherwise the call panics. -/
theorem C4_ReverseProxy_installs_GET_and_POST (gin : Gin) (path target : String)
    (router : Engine) :
    ReverseProxy gin path target router =
      (if router.admits gin Method.GET (joinPaths "/" path) = true ∧
          router.admits gin Method.POST (joinPaths "/" path) = true then
        some { router with
          routes := router.routes ++
            [{ method := Method.GET, path := joinPaths "/" path, target := target },
             { method := Method.POST, path := joinPaths "/" path, target := target }] }
      else none) ∧
    (∀ e, ReverseProxy gin path target router = some e →
      ({ method := Method.GET, path := joinPaths "/" path, target := target } : Route) ∈
        e.routes ∧
      ({ method := Method.POST, path := joinPaths "/" path, target := target } : Route) ∈
        e.routes ∧
      ∀ r ∈ e.routes, r ∉ router.routes →
        r.path = joinPaths "/" path ∧ r.target = target ∧
          (r.method = Method.GET ∨ r.method = Method.POST)) := by
  have h := ReverseProxy_eq gin path target router
  refine ⟨h, ?_⟩
  intro e he
  rw [h] at he
  split_ifs at he with ha
  have he' := Option.some.inj he
  subst he'
  refine ⟨by simp [forwardingRoutes], by simp [forwardingRoutes], ?_⟩
  intro r hr hnot
  simp only [forwardingRoutes, List.mem_append, List.mem_cons, List.mem_singleton,
    List.not_mem_nil, or_false] at hr
  rcases hr with hr | hr | hr
  · exact absurd hr hnot
  · subst hr; exact ⟨rfl, rfl, Or.inl rfl⟩
  · subst hr; exact ⟨rfl, rfl, Or.inr rfl⟩

/-- C4 (amended), applied to the route `/api` on a fresh router. -/
theorem C4_ReverseProxy_installs_GET_and_POST_witness :
    ReverseProxy ginStatic "/api" "http://10.0.0.5:3000" ginDefault =
      some { routes :=
        [{ method := Method.GET, path := "/api", target := "http://10.0.0.5:3000" },
         { method := Method.POST, path := "/api", target := "http://10.0.0.5:3000" }] } :=
  (C4_ReverseProxy_installs_GET_and_POST ginStatic "/api" "http://10.0.0.5:3000"
    ginDefault).1.trans (by decide)

/-- C5: for every descriptor with a non-empty `Url`, `StartServer` returns nil
and the descriptor unchanged (also after `DoConfig`, as the orchestrator calls
it); the orchestrator launches no listener for it and either leaves the gateway
as it is (resolved access path empty or `/`), or adds to the front-end router
exactly the `GET` and `POST` routes under the resolved access path (as gin
joins it to `/`) whose target is the input `Url`, or panics because gin does
not admit the registration. -/
theorem C5_given_url_is_kept (gin : Gin) (os : OsEnv) (i : Nat) (x : OneServerBindConfig)
    (g : Gateway) (h : x.Url ≠ "") :
    (∀ stat, StartServer stat x = (x, none)) ∧
    StartServer os.stat (DoConfig (os.net i) x) = (DoConfig (os.net i) x, none) ∧
    serviceStep gin os i x g =
      (if (DoConfig (os.net i) x).AccessPath ≠ "" ∧ (DoConfig (os.net i) x).AccessPath ≠ "/" then
        if g.router.admits gin Method.GET
              (joinPaths "/" (DoConfig (os.net i) x).AccessPath) = true ∧
            g.router.admits gin Method.POST
              (joinPaths "/" (DoConfig (os.net i) x).AccessPath) = true then
          some
            { router := { g.router with
                routes := g.router.routes ++
                  [{ method := Method.GET,
                     path := joinPaths "/" (DoConfig (os.net i) x).AccessPath,
                     target := x.Url },
                   { method := Method.POST,
                     path := joinPaths "/" (DoConfig (os.net i) x).AccessPath,
                     target := x.Url }] },
              backends := g.backends }
        else none
      else some g) := by
  have hu : (DoConfig (os.net i) x).Url ≠ "" := by rw [DoConfig_Url]; exact h
  have hs := StartServer_of_url os.stat _ hu
  have hp : pipeline os i x = DoConfig (os.net i) x := by
    unfold pipeline
    rw [hs]
  refine ⟨fun stat => StartServer_of_url stat x h, hs, ?_⟩
  rw [serviceStep_eq, hp, hs, DoConfig_Url]
  simp [forwardingRoutes]

/-- C5, applied to the service `/api` at `http://10.0.0.5:3000`. -/
theorem C5_given_url_is_kept_witness :
    serviceStep ginStatic sampleOs 0 { Url := "http://10.0.0.5:3000", AccessPath := "/api" }
        { router := ginDefault } =
      some
        { router :=
            { routes :=
                [{ method := Method.GET, path := "/api", target := "http://10.0.0.5:3000" },
                 { method := Method.POST, path := "/api", target := "http://10.0.0.5:3000" }] },
          backends := [] } :=
  (C5_given_url_is_kept ginStatic sampleOs 0
    { Url := "http://10.0.0.5:3000", AccessPath := "/api" }
    { router := ginDefault } (by decide)).2.2.trans (by decide)

/-- C6 (as stated, refuted): with the static directories `./siteA/public` and
`./siteB/public` both services resolve to the access path `/public`, neither
empty nor `/`, yet the second one gets no route: its registration finds `GET`
already handled at `/public` and the program panics. -/
theorem C6_main_panics_on_equal_paths :
    (resolvedFrom sampleOs 0 clashConf.Servers).map (fun x => x.AccessPath) =
      ["/public", "/public"] ∧
    main ginStatic clashConf sampleOs = SetupResult.panicked := by
  decide

/-- C6 (amended): for every configuration the front-end router is started, and
the setup pass either completes or ends in the panic of a registration.  The
services that get a route are those whose resolved access path is neither
empty nor `/`; the path of their routes is the resolved access path as gin
joins it to `/`.  When the pass completes, the route table is, in `Servers`
order, exactly the `GET` and `POST` routes of those services, each targeting
the resolved `Url`.  The pass completes whenever these paths are pairwise
distinct and the tree of gin accepts each of them, and it panics whenever two
of them are equal. -/
theorem C6_main_routes (gin : Gin) (conf : Configs) (os : OsEnv) :
    main gin conf os ≠ SetupResult.skipped ∧
    (∀ g, main gin conf os = SetupResult.ready g →
      g.router.routes =
        ((resolvedFrom os 0 conf.Servers).filter
          (fun x => decide (x.AccessPath ≠ "" ∧ x.AccessPath ≠ "/"))).flatMap
          (fun x =>
            [{ method := Method.GET, path := joinPaths "/" x.AccessPath, target := x.Url },
             { method := Method.POST, path := joinPaths "/" x.AccessPath, target := x.Url }])) ∧
    ((((resolvedFrom os 0 conf.Servers).filter
          (fun x => decide (x.AccessPath ≠ "" ∧ x.AccessPath ≠ "/"))).map
          (fun x => joinPaths "/" x.AccessPath)).Nodup →
      (∀ x ∈ (resolvedFrom os 0 conf.Servers).filter
          (fun x => decide (x.AccessPath ≠ "" ∧ x.AccessPath ≠ "/")),
        ∀ tree, gin.accepts tree (joinPaths "/" x.AccessPath) = true) →
      ∃ g, main gin conf os = SetupResult.ready g) ∧
    (¬ (((resolvedFrom os 0 conf.Servers).filter
          (fun x => decide (x.AccessPath ≠ "" ∧ x.AccessPath ≠ "/"))).map
          (fun x => joinPaths "/" x.AccessPath)).Nodup →
      main gin conf os = SetupResult.panicked) := by
  have hm : main gin conf os =
      match setupLoop gin os 0 conf.Servers
        { router := { ginDefault with
            trustedProxies := some ["127.0.0.1"],
            listenAddr := some (conf.BindIp ++ ":" ++ Itoa conf.BindPort) } } with
      | some g => SetupResult.ready g
      | none => SetupResult.panicked := by
    simp [main, StartServer]
  refine ⟨?_, ?_, ?_, ?_⟩
  · rw [hm]
    split <;> simp
  · intro g hg
    rw [hm] at hg
    split at hg
    · rename_i g1 hl
      have hg1 : g1 = g := by simpa using hg
      rw [← hg1, setupLoop_routes gin os conf.Servers 0 _ g1 hl]
      simp [ginDefault, forwardingRoutes]
    · simp at hg
  · intro hnd hacc
    obtain ⟨g1, hg1⟩ := setupLoop_succeeds gin os conf.Servers 0
      { router := { ginDefault with
          trustedProxies := some ["127.0.0.1"],
          listenAddr := some (conf.BindIp ++ ":" ++ Itoa conf.BindPort) } } hnd
      (fun x hx => ⟨hacc x hx, by simp [ginDefault]⟩)
    exact ⟨g1, by rw [hm, hg1]⟩
  · intro hnd
    rw [hm, setupLoop_panics gin os conf.Servers 0 _ (Or.inl hnd)]

/-- C6 (amended), applied to a configuration with one static directory and one
external service: the pass completes with the routes `/app1` and `/api`. -/
theorem C6_main_routes_witness :
    ∃ g, main ginStatic sampleConf sampleOs = SetupResult.ready g ∧
      g.router.routes =
        [{ method := Method.GET, path := "/app1", target := "http://127.0.0.1:40001" },
         { method := Method.POST, path := "/app1", target := "http://127.0.0.1:40001" },
         { method := Method.GET, path := "/api", target := "http://10.0.0.5:3000" },
         { method := Method.POST, path := "/api", target := "http://10.0.0.5:3000" }] := by
  obtain ⟨g, hg⟩ := (C6_main_routes ginStatic sampleConf sampleOs).2.2.1 (by decide)
    (fun _ _ _ => rfl)
  exact ⟨g, hg, ((C6_main_routes ginStatic sampleConf sampleOs).2.1 g hg).trans (by decide)⟩

/-- C7: `DoConfig` is total and only fills gaps: for every descriptor and every
answer of the port allocator, `Name`, `StaticDir`, `Url` and `Des` are the
input's; `BindPort`, `BindIp` and `AccessPath` are the input's when those were
non-zero / non-empty; an empty `BindIp` becomes `127.0.0.1`; a zero `BindPort`
becomes the allocated port when allocation succeeds and stays zero when it
fails. -/
theorem C7_DoConfig_only_fills_gaps (os : NetEnv) (config : OneServerBindConfig) :
    (DoConfig os config).Name = config.Name ∧
    (DoConfig os config).StaticDir = config.StaticDir ∧
    (DoConfig os config).Url = config.Url ∧
    (DoConfig os config).Des = config.Des ∧
    (config.BindPort ≠ 0 → (DoConfig os config).BindPort = config.BindPort) ∧
    (config.BindIp ≠ "" → (DoConfig os config).BindIp = config.BindIp) ∧
    (config.AccessPath ≠ "" → (DoConfig os config).AccessPath = config.AccessPath) ∧
    (config.BindIp = "" → (DoConfig os config).BindIp = "127.0.0.1") ∧
    (∀ port, config.BindPort = 0 → GetFreePort os = Except.ok port →
      (DoConfig os config).BindPort = port) ∧
    (∀ err, config.BindPort = 0 → GetFreePort os = Except.error err →
      (DoConfig os config).BindPort = 0) := by
  refine ⟨?_, DoConfig_StaticDir os config, DoConfig_Url os config, ?_, ?_, ?_, ?_, ?_, ?_, ?_⟩
  · unfold DoConfig
    simp only [regexpCompile]
    split_ifs <;> (try split) <;> simp_all
  · unfold DoConfig
    simp only [regexpCompile]
    split_ifs <;> (try split) <;> simp_all
  · intro h
    have h' : ¬ (0 = config.BindPort) := fun e => h e.symm
    rw [DoConfig_BindPort, if_neg h']
  · intro h
    have h' : ¬ ("" = config.BindIp) := fun e => h e.symm
    rw [DoConfig_BindIp, if_neg h']
  · intro h
    exact DoConfig_AccessPath_kept os config (Or.inl h)
  · intro h
    rw [DoConfig_BindIp, if_pos h.symm]
  · intro port h hp
    rw [DoConfig_BindPort, if_pos h.symm, hp]
  · intro err h hp
    rw [DoConfig_BindPort, if_pos h.symm, hp]
    exact h

/-- C7, applied to a descriptor that only names its directory, once with a
successful and once with a failed port allocation. -/
theorem C7_DoConfig_only_fills_gaps_witness :
    (DoConfig { resolveOk := true, listenPort := some 40001 }
        { StaticDir := "./public/app1" }).BindPort = 40001 ∧
    (DoConfig { resolveOk := true, listenPort := none }
        { StaticDir := "./public/app1" }).BindPort = 0 ∧
    (DoConfig { resolveOk := true, listenPort := some 40001 }
        { StaticDir := "./public/app1" }).BindIp = "127.0.0.1" :=
  ⟨(C7_DoConfig_only_fills_gaps { resolveOk := true, listenPort := some 40001 }
      { StaticDir := "./public/app1" }).2.2.2.2.2.2.2.2.1 40001 rfl rfl,
   (C7_DoConfig_only_fills_gaps { resolveOk := true, listenPort := none }
      { StaticDir := "./public/app1" }).2.2.2.2.2.2.2.2.2 _ rfl rfl,
   (C7_DoConfig_only_fills_gaps { resolveOk := true, listenPort := some 40001 }
      { StaticDir := "./public/app1" }).2.2.2.2.2.2.2.1 rfl⟩

/-- C8 (as stated, refuted): a descriptor that only names its directory, hence
with no `Url` supplied, still has `BindPort` zero after `DoConfig` and
`StartServer` when the port allocation fails. -/
theorem C8_pipeline_port_zero_when_allocation_fails :
    ({ StaticDir := "./web/app1" } : OneServerBindConfig).Url = "" ∧
    (pipeline { stat := fun _ => StatResult.notExist,
                net := fun _ => { resolveOk := true, listenPort := none } } 0
        { StaticDir := "./web/app1" }).BindPort = 0 := by
  decide

/-- C8 (amended): after `DoConfig` followed by `StartServer` every descriptor
has a non-empty `Url` and a non-empty `BindIp`; when its `Url` was not supplied
its `BindPort` is non-zero provided it was non-zero in the input or the port
allocation succeeded with a non-zero port; after a failed allocation a zero
`BindPort` stays zero; and its `AccessPath` is non-empty whenever its
`StaticDir` was non-empty in the input. -/
theorem C8_pipeline_invariant (os : OsEnv) (i : Nat) (x : OneServerBindConfig) :
    (pipeline os i x).Url ≠ "" ∧
    (pipeline os i x).BindIp ≠ "" ∧
    (x.Url = "" →
      (x.BindPort ≠ 0 ∨ ∃ port, GetFreePort (os.net i) = Except.ok port ∧ port ≠ 0) →
      (pipeline os i x).BindPort ≠ 0) ∧
    (x.BindPort = 0 → (∃ err, GetFreePort (os.net i) = Except.error err) →
      (pipeline os i x).BindPort = 0) ∧
    (x.StaticDir ≠ "" → (pipeline os i x).AccessPath ≠ "") := by
  have hfield : (pipeline os i x).BindIp = (DoConfig (os.net i) x).BindIp ∧
      (pipeline os i x).BindPort = (DoConfig (os.net i) x).BindPort ∧
      (pipeline os i x).AccessPath = (DoConfig (os.net i) x).AccessPath := by
    unfold pipeline
    by_cases h : (DoConfig (os.net i) x).Url = ""
    · rw [StartServer_config_of_no_url os.stat _ h]
      exact ⟨rfl, rfl, rfl⟩
    · rw [StartServer_of_url os.stat _ h]
      exact ⟨rfl, rfl, rfl⟩
  refine ⟨?_, ?_, ?_, ?_, ?_⟩
  · unfold pipeline
    by_cases h : (DoConfig (os.net i) x).Url = ""
    · rw [StartServer_config_of_no_url os.stat _ h]
      exact append_ne_empty_left _ _ (by decide)
    · rw [StartServer_of_url os.stat _ h]
      exact h
  · rw [hfield.1, DoConfig_BindIp]
    split_ifs with h
    · decide
    · exact fun e => h e.symm
  · intro _ hp
    rw [hfield.2.1, DoConfig_BindPort]
    split_ifs with h
    · rcases hp with hp | ⟨port, hok, hne⟩
      · exact absurd h.symm hp
      · rw [hok]
        exact hne
    · exact fun e => h e.symm
  · intro h0 ⟨err, herr⟩
    rw [hfield.2.1, DoConfig_BindPort, if_pos h0.symm, herr]
    exact h0
  · intro hs
    rw [hfield.2.2]
    by_cases ha : x.AccessPath = ""
    · rw [DoConfig_AccessPath_derived _ x ha hs]
      exact append_ne_empty_left _ _ (by decide)
    · rw [DoConfig_AccessPath_kept _ x (Or.inl ha)]
      exact ha

/-- C8 (amended), applied to a descriptor that only names its directory, once
with a successful and once with a failed port allocation. -/
theorem C8_pipeline_invariant_witness :
    (pipeline sampleOs 0 { StaticDir := "./web/app1" }).BindPort ≠ 0 ∧
    (pipeline sampleOs 0 { StaticDir := "./web/app1" }).AccessPath ≠ "" ∧
    (pipeline { stat := fun _ => StatResult.notExist,
                net := fun _ => { resolveOk := false, listenPort := none } } 0
        { StaticDir := "./web/app1" }).BindPort = 0 :=
  ⟨(C8_pipeline_invariant sampleOs 0 { StaticDir := "./web/app1" }).2.2.1 rfl
      (Or.inr ⟨40001, rfl, by decide⟩),
   (C8_pipeline_invariant sampleOs 0 { StaticDir := "./web/app1" }).2.2.2.2 (by decide),
   (C8_pipeline_invariant
      { stat := fun _ => StatResult.notExist,
        net := fun _ => { resolveOk := false, listenPort := none } } 0
      { StaticDir := "./web/app1" }).2.2.2.1 rfl ⟨_, rfl⟩⟩

/-- C9 (as stated, refuted): when the file-status check of `index.html` fails
with an error other than does-not-exist, so that the file is not known to
exist, the catch-all fallback is installed all the same. -/
theorem C9_StartServer_fallback_on_other_error :
    (fun _ => StatResult.otherError : String → StatResult) "./web/app1/index.html"
      ≠ StatResult.found ∧
    ∃ e, (StartServer (fun _ => StatResult.otherError)
        { StaticDir := "./web/app1", BindIp := "127.0.0.1", BindPort := 40001 }).2 = some e ∧
      e.noRoute = some "./web/app1/index.html" :=
  ⟨by decide, _, rfl, rfl⟩

/-- C9 (amended): for every launched listener with a non-empty `StaticDir`,
the catch-all fallback is installed if and only if the file-status check of
the directory's `index.html` does not report does-not-exist (the file exists,
or the check fails with another error); it is absent exactly when the check
reports does-not-exist, and when installed it serves `StaticDir/index.html`. -/
theorem C9_StartServer_fallback (stat : String → StatResult) (config : OneServerBindConfig)
    (h1 : config.Url = "") (h2 : config.StaticDir ≠ "") :
    ∃ e, (StartServer stat config).2 = some e ∧
      e.staticRoot = some config.StaticDir ∧
      (e.noRoute = some (config.StaticDir ++ "/index.html") ↔
        stat (config.StaticDir ++ "/index.html") ≠ StatResult.notExist) ∧
      (e.noRoute = none ↔
        stat (config.StaticDir ++ "/index.html") = StatResult.notExist) := by
  have h2' : ¬ ("" = config.StaticDir) := fun e => h2 e.symm
  by_cases hs : stat (config.StaticDir ++ "/index.html") = StatResult.notExist
  · have he : (StartServer stat config).2 =
        some { staticRoot := some config.StaticDir,
               listenAddr := some (config.BindIp ++ ":" ++ Itoa config.BindPort) } := by
      simp [StartServer, h1, h2', regexpCompile, hs, ginDefault]
    exact ⟨_, he, rfl, by simp [hs], by simp [hs]⟩
  · have he : (StartServer stat config).2 =
        some { staticRoot := some config.StaticDir,
               noRoute := some (config.StaticDir ++ "/index.html"),
               listenAddr := some (config.BindIp ++ ":" ++ Itoa config.BindPort) } := by
      simp [StartServer, h1, h2', regexpCompile, hs, ginDefault]
    exact ⟨_, he, rfl, by simp [hs], by simp [hs]⟩

/-- C9 (amended), applied to a directory whose `index.html` exists. -/
theorem C9_StartServer_fallback_witness :
    ∃ e, (StartServer (fun _ => StatResult.found)
        { StaticDir := "./web/app1", BindIp := "127.0.0.1", BindPort := 40001 }).2 = some e ∧
      e.staticRoot = some "./web/app1" ∧
      (e.noRoute = some ("./web/app1" ++ "/index.html") ↔
        StatResult.found ≠ StatResult.notExist) ∧
      (e.noRoute = none ↔ StatResult.found = StatResult.notExist) :=
  C9_StartServer_fallback (fun _ => StatResult.found)
    { StaticDir := "./web/app1", BindIp := "127.0.0.1", BindPort := 40001 } rfl (by decide)

/-- C10: at the directory `./public\nold/app1/`, which ends with `/` (and has
a line feed before it), `DoConfig` derives the access path `/public\n` instead
of `/`, and the orchestrator installs the `GET` and `POST` routes at that
path. -/
theorem C10_trailing_slash_after_line_feed_gets_route :
    (DoConfig (sampleOs.net 0) { StaticDir := "./public\nold/app1/" }).AccessPath
      = "/public\n" ∧
    (serviceStep ginStatic sampleOs 0 { StaticDir := "./public\nold/app1/" }
        { router := ginDefault }).map (fun g => g.router.routes) =
      some
        [{ method := Method.GET, path := "/public\n", target := "http://127.0.0.1:40001" },
         { method := Method.POST, path := "/public\n", target := "http://127.0.0.1:40001" }] := by
  decide

end GoSimpleHttpServer
